import Mathlib

set_option maxRecDepth 40000

/-! Shallow embedding of the bill validation, deduplication and
reconciliation core of the repository: the ValidationEngine in
src/services/validator.py (duplicated as DataValidator in
src/services/data_validator.py) and the reconciliation steps of
process_invoice_request in src/main.py.

Modelling conventions: Python dynamic values reaching the core are an
inductive PyVal (None, str, numbers, lists, dicts); Python numbers are
modelled as PyFloat values, exact rationals extended with the non-finite
float values inf, -inf and nan that float() can produce; code paths that
can raise an uncaught exception are modelled in Except Unit. All definitions are executable and
use structural recursion so that concrete runs reduce in the kernel. -/

/-- A Python float value: an exact rational in the finite case, or one of
the non-finite values inf, -inf and nan that float() can produce. Finite
values are kept as exact rationals (true double rounding is below the
granularity of this model and no claim depends on it); the non-finite
values and their arithmetic follow Python float semantics. -/
inductive PyFloat where
  | finite (q : ℚ)
  | inf
  | ninf
  | nan
deriving DecidableEq, Repr

/-- True exactly on the finite values. -/
def PyFloat.isFinite : PyFloat → Bool
  | .finite _ => true
  | _ => false

/-- Python float negation. -/
def pyNeg : PyFloat → PyFloat
  | .finite q => .finite (-q)
  | .inf => .ninf
  | .ninf => .inf
  | .nan => .nan

/-- Python float addition: exact on finite values, nan absorbing, and
inf + (-inf) = nan. -/
def pyAdd : PyFloat → PyFloat → PyFloat
  | .nan, _ => .nan
  | _, .nan => .nan
  | .finite a, .finite b => .finite (a + b)
  | .finite _, .inf => .inf
  | .finite _, .ninf => .ninf
  | .inf, .finite _ => .inf
  | .inf, .inf => .inf
  | .inf, .ninf => .nan
  | .ninf, .finite _ => .ninf
  | .ninf, .inf => .nan
  | .ninf, .ninf => .ninf

/-- Python float subtraction, as addition of the negation. -/
def pySub (a b : PyFloat) : PyFloat := pyAdd a (pyNeg b)

/-- Python abs on floats. -/
def pyAbs : PyFloat → PyFloat
  | .finite q => .finite |q|
  | .inf => .inf
  | .ninf => .inf
  | .nan => .nan

/-- Python float strict comparison: nan compares false against everything. -/
def pyLt : PyFloat → PyFloat → Bool
  | .nan, _ => false
  | _, .nan => false
  | .finite a, .finite b => decide (a < b)
  | .finite _, .inf => true
  | .finite _, .ninf => false
  | .inf, _ => false
  | .ninf, .ninf => false
  | .ninf, _ => true

/-- Python max(a, b): returns b only when b is strictly greater than a, so
max(nan, x) is nan and max(x, nan) is x, as the builtin behaves. -/
def pyMax (a b : PyFloat) : PyFloat := if pyLt a b then b else a

/-- Python float division. Division of a finite value by zero raises
ZeroDivisionError in Python; the core only ever divides by
max(abs(amount), 0.01), which is a positive finite value, inf or nan,
never zero, so the value returned here for a zero divisor is unreachable
junk. Signed zeros are collapsed to the single rational zero, which no
comparison in the core can distinguish. -/
def pyDiv : PyFloat → PyFloat → PyFloat
  | .nan, _ => .nan
  | _, .nan => .nan
  | .finite a, .finite b => .finite (a / b)
  | .finite _, .inf => .finite 0
  | .finite _, .ninf => .finite 0
  | .inf, .finite b => if b < 0 then .ninf else .inf
  | .ninf, .finite b => if b < 0 then .inf else .ninf
  | .inf, .inf => .nan
  | .inf, .ninf => .nan
  | .ninf, .inf => .nan
  | .ninf, .ninf => .nan

lemma pyAdd_assoc (a b c : PyFloat) : pyAdd (pyAdd a b) c = pyAdd a (pyAdd b c) := by
  cases a <;> cases b <;> cases c <;> simp [pyAdd, add_assoc]

lemma pyAdd_comm (a b : PyFloat) : pyAdd a b = pyAdd b a := by
  cases a <;> cases b <;> simp [pyAdd, add_comm]

lemma pyAdd_zero_left (a : PyFloat) : pyAdd (.finite 0) a = a := by
  cases a <;> simp [pyAdd]

lemma pyAdd_zero_right (a : PyFloat) : pyAdd a (.finite 0) = a := by
  cases a <;> simp [pyAdd]

/-- Repeated pyAdd, the nsmul field of the monoid instance. -/
def pyNsmul : ℕ → PyFloat → PyFloat
  | 0, _ => .finite 0
  | n + 1, a => pyAdd (pyNsmul n a) a

instance : AddCommMonoid PyFloat where
  add := pyAdd
  zero := .finite 0
  add_assoc := pyAdd_assoc
  zero_add := pyAdd_zero_left
  add_zero := pyAdd_zero_right
  add_comm := pyAdd_comm
  nsmul := pyNsmul
  nsmul_zero := fun _ => rfl
  nsmul_succ := fun _ _ => rfl

instance : One PyFloat := ⟨.finite 1⟩

instance (n : ℕ) [n.AtLeastTwo] : OfNat PyFloat n := ⟨.finite (OfNat.ofNat n)⟩

/-- Dynamic Python-like value: the shape of the raw per-page extraction
records that flow into the core. Numbers (int and float) are modelled as
PyFloat values. -/
inductive PyVal where
  | none
  | str (s : String)
  | num (x : PyFloat)
  | list (xs : List PyVal)
  | dict (kvs : List (String × PyVal))

/-- Characters that Python str.strip removes, modelled as whitespace. -/
def stripList (cs : List Char) : List Char :=
  ((cs.dropWhile Char.isWhitespace).reverse.dropWhile Char.isWhitespace).reverse

/-- Python str.strip: remove leading and trailing whitespace. -/
def pyStrip (s : String) : String := String.mk (stripList s.data)

/-- Approximate model of Python float-to-text; finite integral values
print with a trailing ".0", the non-finite values as Python prints them.
No claim depends on this text form. -/
def floatRepr : PyFloat → String
  | .finite q =>
    if q.den = 1 then toString q.num ++ ".0" else toString q.num ++ "/" ++ toString q.den
  | .inf => "inf"
  | .ninf => "-inf"
  | .nan => "nan"

mutual
/-- Python repr of a value; containers show the repr of their elements. The
exact text of numeric and container reprs is modelled approximately; no
claim depends on it. -/
def pyRepr : PyVal → String
  | .none => "None"
  | .str s => "\x27" ++ s ++ "\x27"
  | .num q => floatRepr q
  | .list xs => "[" ++ String.intercalate ", " (pyReprList xs) ++ "]"
  | .dict kvs => "\x7b" ++ String.intercalate ", " (pyReprPairs kvs) ++ "\x7d"

/-- repr of each element of a Python list. -/
def pyReprList : List PyVal → List String
  | [] => []
  | x :: xs => pyRepr x :: pyReprList xs

/-- repr of each key-value pair of a Python dict. -/
def pyReprPairs : List (String × PyVal) → List String
  | [] => []
  | (k, v) :: rest => ("\x27" ++ k ++ "\x27: " ++ pyRepr v) :: pyReprPairs rest
end

/-- Python str() coercion: total on every value (str(None) is "None"). -/
def pyStr : PyVal → String
  | .none => "None"
  | .str s => s
  | .num q => floatRepr q
  | v => pyRepr v

/-- Digits to a natural number. -/
def digitsToNat (ds : List Char) : Nat := ds.foldl (fun a c => a * 10 + (c.toNat - 48)) 0

/-- Exponent digits of a float literal: one or more decimal digits. -/
def parseExpDigits (ds : List Char) : Option ℕ :=
  if !ds.isEmpty && ds.all Char.isDigit then some (digitsToNat ds) else Option.none

/-- Parse an unsigned finite decimal literal of Python float(): digits with
an optional single decimal point, followed by an optional e or E exponent
with an optional sign. Digit-group underscores are not modelled; no claim
depends on them. -/
def parseDecimal (cs : List Char) : Option ℚ :=
  let intPart := cs.takeWhile Char.isDigit
  let rest := cs.dropWhile Char.isDigit
  let mantissa : Option (ℚ × List Char) :=
    match rest with
    | [] => if intPart.isEmpty then Option.none else some ((digitsToNat intPart : ℚ), [])
    | c :: rest2 =>
      if c = '.' then
        let fracPart := rest2.takeWhile Char.isDigit
        let rest3 := rest2.dropWhile Char.isDigit
        if intPart.isEmpty && fracPart.isEmpty then Option.none
        else some ((digitsToNat intPart : ℚ) +
          (digitsToNat fracPart : ℚ) / ((10 ^ fracPart.length : ℕ) : ℚ), rest3)
      else if intPart.isEmpty then Option.none
      else some ((digitsToNat intPart : ℚ), rest)
  match mantissa with
  | Option.none => Option.none
  | some (m, rest3) =>
    match rest3 with
    | [] => some m
    | e :: rest4 =>
      if e = 'e' ∨ e = 'E' then
        match rest4 with
        | [] => Option.none
        | c :: rest5 =>
          if c = '-' then (parseExpDigits rest5).map (fun n => m / ((10 ^ n : ℕ) : ℚ))
          else if c = '+' then (parseExpDigits rest5).map (fun n => m * ((10 ^ n : ℕ) : ℚ))
          else (parseExpDigits rest4).map (fun n => m * ((10 ^ n : ℕ) : ℚ))
      else Option.none

/-- The decimal magnitude at which conversion to a double overflows: finite
decimal values of magnitude at least 2^1024 - 2^970 round to the
infinities (so float("1e999") is inf in the code); smaller values stay
finite and are kept exact in the rational model. -/
def overflowThreshold : ℚ := ((2 ^ 1024 - 2 ^ 970 : ℕ) : ℚ)

/-- Wrap a parsed finite decimal value, applying double overflow. -/
def toPyFloat (q : ℚ) : PyFloat :=
  if q ≥ overflowThreshold then .inf
  else if q ≤ -overflowThreshold then .ninf
  else .finite q

/-- Unsigned body of a Python float literal: the keywords inf, infinity
and nan (case-insensitive) or a finite decimal with optional exponent,
with decimal overflow mapped to inf. -/
def parseFloatMag (cs : List Char) : Option PyFloat :=
  let low := cs.map Char.toLower
  if low = "inf".data ∨ low = "infinity".data then some .inf
  else if low = "nan".data then some .nan
  else (parseDecimal cs).map toPyFloat

/-- Python float() coercion: succeeds on numbers and on numeric strings
(optionally signed decimal literals with optional exponent, and the
case-insensitive keywords inf, infinity and nan), failing (raising
ValueError or TypeError, which the caller catches) on None, lists, dicts
and other strings. -/
def pyFloat : PyVal → Option PyFloat
  | .num x => some x
  | .str s =>
    match stripList s.data with
    | [] => Option.none
    | c :: rest =>
      if c = '-' then (parseFloatMag rest).map pyNeg
      else if c = '+' then parseFloatMag rest
      else parseFloatMag (c :: rest)
  | _ => Option.none

/-- Python dict.get with a default. -/
def pyGet : List (String × PyVal) → String → PyVal → PyVal
  | [], _, dflt => dflt
  | kv :: rest, k, dflt => if kv.1 = k then kv.2 else pyGet rest k dflt

/-- Python iteration over a value: lists yield their elements, strings
yield one-character strings, dicts yield their keys; None and numbers are
not iterable (TypeError). -/
def pyIter : PyVal → Option (List PyVal)
  | .list xs => some xs
  | .str s => some (s.data.map fun c => .str (String.singleton c))
  | .dict kvs => some (kvs.map fun kv => .str kv.1)
  | _ => Option.none

/-- Python str.lower, modelled per character. -/
def pyLower (s : String) : String := String.mk (s.data.map Char.toLower)

/-- Python substring containment: the in operator on strings (the empty
pattern is contained in every string, as in Python). -/
def substrB (pat s : String) : Bool := s.data.tails.any (fun t => pat.data.isPrefixOf t)

/-- Replace every non-overlapping occurrence of pat, scanning left to
right, as Python str.replace does. The fuel argument only bounds the scan
and is instantiated with the length of the scanned list, which the scan
never exceeds; an empty pattern is a no-op here, and the core never calls
replace with an empty pattern. -/
def replaceFuel (pat repl : List Char) : Nat → List Char → List Char
  | _, [] => []
  | 0, l => l
  | fuel + 1, c :: rest =>
    if !pat.isEmpty && pat.isPrefixOf (c :: rest) then
      repl ++ replaceFuel pat repl fuel (List.drop (pat.length - 1) rest)
    else c :: replaceFuel pat repl fuel rest

/-- Python str.replace: all non-overlapping occurrences, left to right. -/
def pyReplace (s pat repl : String) : String :=
  String.mk (replaceFuel pat.data repl.data s.data.length s.data)

/-- Accumulator pass for pySplitWords: collect maximal nonempty runs of
non-whitespace characters. -/
def wordsAux : List Char → List Char → List (List Char)
  | acc, [] => if acc.isEmpty then [] else [acc.reverse]
  | acc, c :: rest =>
    if c.isWhitespace then
      if acc.isEmpty then wordsAux [] rest else acc.reverse :: wordsAux [] rest
    else wordsAux (c :: acc) rest

/-- Python str.split() with no argument: split on whitespace runs,
dropping empty pieces. -/
def pySplitWords (s : String) : List String := (wordsAux [] s.data).map String.mk

/-- A validated line item: the dict returned by ValidationEngine._validate_item. -/
structure BillItem where
  item_name : String
  item_amount : PyFloat
  item_rate : PyFloat
  item_quantity : PyFloat
deriving DecidableEq, Repr

/-- A validated page: the dict built by ValidationEngine._validate_page. -/
structure Page where
  page_no : String
  page_type : String
  bill_items : List BillItem
deriving DecidableEq, Repr

/-- An accepted item tagged with the page it was first accepted on: the
entries of the seen_items accumulator in _deduplicate_items. -/
structure SeenItem where
  item : BillItem
  page_no : String
deriving DecidableEq, Repr

/-- self.similarity_threshold = 0.8. -/
def similarity_threshold : ℚ := 4/5

/-- The fixed keyword list of _is_total_or_subtotal. -/
def total_keywords : List String :=
  ["total", "subtotal", "sub-total", "grand total",
   "final total", "net amount", "amount due",
   "balance", "sum", "total amount", "final amount"]

/-- ValidationEngine._is_total_or_subtotal. -/
def is_total_or_subtotal (item_name : String) : Bool :=
  let item_lower := pyStrip (pyLower item_name)
  total_keywords.any fun keyword =>
    substrB keyword item_lower && decide (item_lower.length < 30) &&
      (["", "-", ":", "="].contains (pyStrip (pyReplace item_lower keyword "")))

/-- ValidationEngine._normalize_page_type. Calling .lower() on a non-string
raises an uncaught AttributeError, modelled as Except.error. -/
def normalize_page_type (page_type : PyVal) : Except Unit String :=
  match page_type with
  | .str s =>
    let page_type_lower := pyStrip (pyLower s)
    .ok (if substrB "pharmacy" page_type_lower then "Pharmacy"
         else if substrB "final" page_type_lower then "Final Bill"
         else "Bill Detail")
  | _ => .error ()

/-- ValidationEngine._validate_item. Returns ok Option.none when the item is
rejected (dropped silently); calling .get on a non-dict raises an uncaught
AttributeError, modelled as Except.error. The float() failures are caught
by the except clause and reject the item. -/
def validate_item (item : PyVal) : Except Unit (Option BillItem) :=
  match item with
  | .dict kvs =>
    let item_name := pyStrip (pyStr (pyGet kvs "item_name" (.str "")))
    if item_name = "" ∨ item_name.length < 2 then .ok Option.none
    else if is_total_or_subtotal item_name then .ok Option.none
    else
      match pyFloat (pyGet kvs "item_amount" (.num 0)),
            pyFloat (pyGet kvs "item_rate" (.num 0)),
            pyFloat (pyGet kvs "item_quantity" (.num 0)) with
      | some a, some r, some q => .ok (some ⟨item_name, a, r, q⟩)
      | _, _, _ => .ok Option.none
  | _ => .error ()

/-- The per-item loop of _validate_page: rejected items are omitted, an
exception from any item aborts the page. -/
def validate_items : List PyVal → Except Unit (List BillItem)
  | [] => .ok []
  | x :: xs =>
    match validate_item x with
    | .error e => .error e
    | .ok r =>
      match validate_items xs with
      | .error e => .error e
      | .ok rest => .ok (match r with | some b => b :: rest | Option.none => rest)

/-- ValidationEngine._validate_page. page_no is str()-coerced with default
"1"; page_type is normalized (raising on non-strings); bill_items defaults
to the empty list and is iterated (raising on non-iterables). -/
def validate_page (page : PyVal) : Except Unit Page :=
  match page with
  | .dict kvs =>
    let pno := pyStr (pyGet kvs "page_no" (.str "1"))
    match normalize_page_type (pyGet kvs "page_type" (.str "Bill Detail")) with
    | .error e => .error e
    | .ok ptype =>
      match pyIter (pyGet kvs "bill_items" (.list [])) with
      | Option.none => .error ()
      | some items =>
        match validate_items items with
        | .error e => .error e
        | .ok bill => .ok ⟨pno, ptype, bill⟩
  | _ => .error ()

/-- The page loop of validate_and_deduplicate. -/
def validate_pages : List PyVal → Except Unit (List Page)
  | [] => .ok []
  | p :: ps =>
    match validate_page p with
    | .error e => .error e
    | .ok vp =>
      match validate_pages ps with
      | .error e => .error e
      | .ok rest => .ok (vp :: rest)

/-- ValidationEngine._calculate_name_similarity: Jaccard similarity of the
whitespace-tokenized word sets. -/
def calculate_name_similarity (name1 name2 : String) : ℚ :=
  let words1 := (pySplitWords name1).dedup
  let words2 := (pySplitWords name2).dedup
  if words1 = [] ∨ words2 = [] then 0
  else
    let intersection := (words1.filter (fun w => words2.contains w)).length
    let union := words1.length + (words2.filter (fun w => !(words1.contains w))).length
    if union = 0 then 0 else (intersection : ℚ) / (union : ℚ)

/-- ValidationEngine._are_items_duplicate. The first argument is the
candidate item being examined, the second the earlier seen item; the
relative amount test divides by the first amount only. The amount
subtraction, abs, max, division and comparisons follow Python float
semantics through the PyFloat operations. -/
def are_items_duplicate (item1 item2 : BillItem) : Bool :=
  let name1 := pyStrip (pyLower item1.item_name)
  let name2 := pyStrip (pyLower item2.item_name)
  if name1 = name2 then true
  else
    let name_similarity := calculate_name_similarity name1 name2
    let amount_diff := pyAbs (pySub item1.item_amount item2.item_amount)
    if similarity_threshold < name_similarity then
      if pyLt amount_diff (.finite (1/100)) ||
          pyLt (pyDiv amount_diff (pyMax (pyAbs item1.item_amount) (.finite (1/100))))
            (.finite (1/20)) then true
      else false
    else false

/-- The per-page item scan of _deduplicate_items: an item is dropped when it
matches some seen item, otherwise it is kept and appended (tagged with the
page number) to the seen accumulator before the next item is scanned. -/
def dedupScan (pno : String) : List SeenItem → List BillItem → List BillItem × List SeenItem
  | seen, [] => ([], seen)
  | seen, it :: rest =>
    if seen.any (fun s => are_items_duplicate it s.item) then
      dedupScan pno seen rest
    else
      let r := dedupScan pno (seen ++ [⟨it, pno⟩]) rest
      (it :: r.1, r.2)

/-- The page loop of _deduplicate_items, threading the seen accumulator. -/
def dedupPages : List SeenItem → List Page → List Page
  | _, [] => []
  | seen, p :: ps =>
    let r := dedupScan p.page_no seen p.bill_items
    ⟨p.page_no, p.page_type, r.1⟩ :: dedupPages r.2 ps

/-- ValidationEngine._deduplicate_items. -/
def deduplicate_items (pages : List Page) : List Page := dedupPages [] pages

/-- ValidationEngine.validate_and_deduplicate. -/
def validate_and_deduplicate (pagewise_line_items : List PyVal) : Except Unit (List Page) :=
  if pagewise_line_items.isEmpty then .ok []
  else
    match validate_pages pagewise_line_items with
    | .error e => .error e
    | .ok vps => .ok (deduplicate_items vps)

/-- Round-half-to-even on rationals, the rounding of Python round(). -/
def roundHalfEven (q : ℚ) : ℤ :=
  let f := ⌊q⌋
  let r := q - (f : ℚ)
  if r < 1/2 then f else if 1/2 < r then f + 1 else if f % 2 = 0 then f else f + 1

/-- Python round(x, 2) on a finite value. -/
def round2Rat (q : ℚ) : ℚ := ((roundHalfEven (q * 100) : ℤ) : ℚ) / 100

/-- Python round(x, 2): finite values round half-to-even at two decimals;
the non-finite values pass through, as round does with ndigits given. -/
def pyRound2 : PyFloat → PyFloat
  | .finite q => .finite (round2Rat q)
  | .inf => .inf
  | .ninf => .ninf
  | .nan => .nan

/-- The core pipeline of process_invoice_request in src/main.py, steps 3-5:
validate and deduplicate, then sum the per-page item counts, then sum every
item amount (a running float accumulator) and round to 2 decimals. -/
def process_invoice_core (input : List PyVal) : Except Unit (List Page × ℕ × PyFloat) :=
  match validate_and_deduplicate input with
  | .error e => .error e
  | .ok clean_data =>
    let item_count_total := clean_data.foldl (fun acc p => acc + p.bill_items.length) 0
    let calculated_total_sum :=
      clean_data.foldl (fun acc p => p.bill_items.foldl (fun a e => a + e.item_amount) acc) 0
    .ok (clean_data, item_count_total, pyRound2 calculated_total_sum)

/-! Auxiliary instances and lemmas. -/

instance {ε α : Type _} [DecidableEq ε] [DecidableEq α] : DecidableEq (Except ε α) := fun a b =>
  match a, b with
  | .error e, .error f =>
    if h : e = f then isTrue (congrArg Except.error h)
    else isFalse (fun hc => h (by injection hc))
  | .ok x, .ok y =>
    if h : x = y then isTrue (congrArg Except.ok h)
    else isFalse (fun hc => h (by injection hc))
  | .error _, .ok _ => isFalse (fun hc => by injection hc)
  | .ok _, .error _ => isFalse (fun hc => by injection hc)

lemma stripList_eq_rdropWhile (l : List Char) :
    stripList l = List.rdropWhile Char.isWhitespace (List.dropWhile Char.isWhitespace l) := rfl

lemma head?_dropWhile_not (p : Char → Bool) (l : List Char) (a : Char)
    (h : (l.dropWhile p).head? = some a) : p a = false := by
  induction l with
  | nil => simp [List.dropWhile] at h
  | cons x t ih =>
    by_cases hx : p x
    · rw [List.dropWhile_cons_of_pos hx] at h
      exact ih h
    · rw [List.dropWhile_cons_of_neg hx] at h
      simp only [List.head?] at h
      injection h with h2
      rw [← h2]
      exact Bool.eq_false_iff.mpr hx

lemma stripList_idem (cs : List Char) : stripList (stripList cs) = stripList cs := by
  rw [stripList_eq_rdropWhile, stripList_eq_rdropWhile]
  set X := List.dropWhile Char.isWhitespace cs with hX
  have h1 : List.dropWhile Char.isWhitespace (List.rdropWhile Char.isWhitespace X) =
      List.rdropWhile Char.isWhitespace X := by
    cases hE : List.rdropWhile Char.isWhitespace X with
    | nil => rfl
    | cons a t2 =>
      obtain ⟨t, ht⟩ := List.rdropWhile_prefix Char.isWhitespace X
      rw [hE] at ht
      have hh : X.head? = some a := by
        rw [← ht]
        rfl
      have hnp : Char.isWhitespace a = false := head?_dropWhile_not _ cs a hh
      rw [List.dropWhile_cons_of_neg (by simp [hnp])]
  rw [h1, List.rdropWhile_idempotent]

lemma pyStrip_idem (s : String) : pyStrip (pyStrip s) = pyStrip s :=
  congrArg String.mk (stripList_idem s.data)

/-- The invariant of an item emitted by validate_item: nonempty trimmed
name of length at least 2 that is not classified as a total line. The
numeric fields are rationals, hence finite, by construction of the model. -/
def ValidItem (b : BillItem) : Prop :=
  b.item_name ≠ "" ∧ pyStrip b.item_name = b.item_name ∧ 2 ≤ b.item_name.length ∧
    is_total_or_subtotal b.item_name = false

lemma validate_item_sound (v : PyVal) (b : BillItem)
    (h : validate_item v = .ok (some b)) : ValidItem b := by
  cases v with
  | dict kvs =>
    simp only [validate_item] at h
    split at h
    · exact absurd h (by simp)
    · next hlen =>
      split at h
      · exact absurd h (by simp)
      · next htot =>
        split at h
        · injection h with h2
          injection h2 with h3
          subst h3
          push_neg at hlen
          exact ⟨hlen.1, pyStrip_idem _, hlen.2, Bool.eq_false_iff.mpr htot⟩
        · exact absurd h (by simp)
  | none => simp [validate_item] at h
  | str s => simp [validate_item] at h
  | num q => simp [validate_item] at h
  | list xs => simp [validate_item] at h

lemma validate_items_sound : ∀ (xs : List PyVal) (l : List BillItem),
    validate_items xs = .ok l → ∀ b ∈ l, ValidItem b := by
  intro xs
  induction xs with
  | nil =>
    intro l h b hb
    simp only [validate_items] at h
    injection h with h1
    rw [← h1] at hb
    cases hb
  | cons x rest ih =>
    intro l h b hb
    simp only [validate_items] at h
    split at h
    · cases h
    · next r hr =>
      split at h
      · cases h
      · next tl htl =>
        injection h with h1
        rw [← h1] at hb
        match r with
        | some b0 =>
          rcases List.mem_cons.mp hb with hb0 | hbtl
          · rw [hb0]
            exact validate_item_sound x b0 hr
          · exact ih tl htl b hbtl
        | Option.none => exact ih tl htl b hb

lemma validate_page_sound (v : PyVal) (pg : Page) (h : validate_page v = .ok pg) :
    ∀ b ∈ pg.bill_items, ValidItem b := by
  cases v with
  | dict kvs =>
    simp only [validate_page] at h
    split at h
    · cases h
    · split at h
      · cases h
      · next items hitems =>
        split at h
        · cases h
        · next bill hbill =>
          injection h with h1
          rw [← h1]
          exact validate_items_sound items bill hbill
  | none => simp [validate_page] at h
  | str s => simp [validate_page] at h
  | num q => simp [validate_page] at h
  | list xs => simp [validate_page] at h

lemma validate_pages_sound : ∀ (vs : List PyVal) (pgs : List Page),
    validate_pages vs = .ok pgs → ∀ pg ∈ pgs, ∀ b ∈ pg.bill_items, ValidItem b := by
  intro vs
  induction vs with
  | nil =>
    intro pgs h pg hpg
    simp only [validate_pages] at h
    injection h with h1
    rw [← h1] at hpg
    cases hpg
  | cons v rest ih =>
    intro pgs h pg hpg
    simp only [validate_pages] at h
    split at h
    · cases h
    · next vp hvp =>
      split at h
      · cases h
      · next tl htl =>
        injection h with h1
        rw [← h1] at hpg
        rcases List.mem_cons.mp hpg with h0 | h0
        · rw [h0]
          exact validate_page_sound v vp hvp
        · exact ih tl htl pg h0

/-! Deduplication lemmas. -/

lemma dedupScan_fst_sublist (pno : String) :
    ∀ (items : List BillItem) (seen : List SeenItem),
      (dedupScan pno seen items).1.Sublist items := by
  intro items
  induction items with
  | nil => intro seen; simp [dedupScan]
  | cons it rest ih =>
    intro seen
    rw [dedupScan]
    by_cases h : seen.any (fun s => are_items_duplicate it s.item)
    · rw [if_pos h]
      exact (ih seen).cons it
    · rw [if_neg h]
      exact (ih _).cons₂ it

lemma dedupScan_snd (pno : String) :
    ∀ (items : List BillItem) (seen : List SeenItem),
      (dedupScan pno seen items).2 = seen ++ (dedupScan pno seen items).1.map (fun b => ⟨b, pno⟩) := by
  intro items
  induction items with
  | nil => intro seen; simp [dedupScan]
  | cons it rest ih =>
    intro seen
    rw [dedupScan]
    by_cases h : seen.any (fun s => are_items_duplicate it s.item)
    · rw [if_pos h]
      exact ih seen
    · rw [if_neg h]
      simp only [List.map_cons, ih]
      simp

lemma dedupScan_kept_not_dup (pno : String) :
    ∀ (items : List BillItem) (seen : List SeenItem) (b : BillItem),
      b ∈ (dedupScan pno seen items).1 → ∀ s ∈ seen, are_items_duplicate b s.item = false := by
  intro items
  induction items with
  | nil => intro seen b hb; simp [dedupScan] at hb
  | cons it rest ih =>
    intro seen b hb s hs
    rw [dedupScan] at hb
    by_cases h : seen.any (fun s => are_items_duplicate it s.item)
    · rw [if_pos h] at hb
      exact ih seen b hb s hs
    · rw [if_neg h] at hb
      rcases List.mem_cons.mp hb with h0 | h0
      · rw [h0]
        have := (List.any_eq_false.mp (Bool.eq_false_iff.mpr h)) s hs
        simpa using this
      · exact ih (seen ++ [⟨it, pno⟩]) b h0 s (List.mem_append_left _ hs)

lemma dedupScan_head_iff (pno : String) (seen : List SeenItem) (it : BillItem) (rest : List BillItem) :
    (dedupScan pno seen (it :: rest)).1.head? = some it ↔
      ∀ s ∈ seen, are_items_duplicate it s.item = false := by
  by_cases h : seen.any (fun s => are_items_duplicate it s.item)
  · rw [dedupScan, if_pos h]
    obtain ⟨s, hs, hdup⟩ := List.any_eq_true.mp h
    constructor
    · intro hh
      have hmem : it ∈ (dedupScan pno seen rest).1 := by
        cases hst : (dedupScan pno seen rest).1 with
        | nil => rw [hst] at hh; cases hh
        | cons x xs =>
          rw [hst] at hh
          injection hh with h2
          rw [h2]
          exact List.mem_cons_self _ _
      have hfalse := dedupScan_kept_not_dup pno rest seen it hmem s hs
      rw [hfalse] at hdup
      cases hdup
    · intro hall
      rw [hall s hs] at hdup
      cases hdup
  · rw [dedupScan, if_neg h]
    constructor
    · intro _ s hs
      have := (List.any_eq_false.mp (Bool.eq_false_iff.mpr h)) s hs
      simpa using this
    · intro _
      rfl

lemma dedupPages_length : ∀ (pages : List Page) (seen : List SeenItem),
    (dedupPages seen pages).length = pages.length := by
  intro pages
  induction pages with
  | nil => intro seen; rfl
  | cons p ps ih =>
    intro seen
    rw [dedupPages]
    simp only [List.length_cons]
    rw [ih]

lemma dedupPages_map_no : ∀ (pages : List Page) (seen : List SeenItem),
    (dedupPages seen pages).map Page.page_no = pages.map Page.page_no := by
  intro pages
  induction pages with
  | nil => intro seen; rfl
  | cons p ps ih =>
    intro seen
    rw [dedupPages]
    simp only [List.map_cons]
    rw [ih]

lemma dedupPages_map_type : ∀ (pages : List Page) (seen : List SeenItem),
    (dedupPages seen pages).map Page.page_type = pages.map Page.page_type := by
  intro pages
  induction pages with
  | nil => intro seen; rfl
  | cons p ps ih =>
    intro seen
    rw [dedupPages]
    simp only [List.map_cons]
    rw [ih]

lemma dedupPages_get_sublist : ∀ (pages : List Page) (seen : List SeenItem) (i : ℕ)
    (hi : i < pages.length) (hi2 : i < (dedupPages seen pages).length),
    ((dedupPages seen pages).get ⟨i, hi2⟩).bill_items.Sublist ((pages.get ⟨i, hi⟩).bill_items) := by
  intro pages
  induction pages with
  | nil => intro seen i hi; cases hi
  | cons p ps ih =>
    intro seen i hi hi2
    cases i with
    | zero => exact dedupScan_fst_sublist p.page_no p.bill_items seen
    | succ n =>
      exact ih _ n (Nat.lt_of_succ_lt_succ hi) (Nat.lt_of_succ_lt_succ hi2)

lemma dedupPages_item_mem : ∀ (pages : List Page) (seen : List SeenItem) (p : Page),
    p ∈ dedupPages seen pages → ∀ b ∈ p.bill_items, ∃ p0 ∈ pages, b ∈ p0.bill_items := by
  intro pages
  induction pages with
  | nil => intro seen p hp; cases hp
  | cons q ps ih =>
    intro seen p hp b hb
    rw [dedupPages] at hp
    rcases List.mem_cons.mp hp with h0 | h0
    · refine ⟨q, List.mem_cons_self _ _, ?_⟩
      rw [h0] at hb
      exact (dedupScan_fst_sublist q.page_no q.bill_items seen).subset hb
    · obtain ⟨p0, hp0, hbp0⟩ := ih _ p h0 b hb
      exact ⟨p0, List.mem_cons_of_mem _ hp0, hbp0⟩

/-! Totality lemmas: validate_item never raises on a dict, and a page of
well-shaped values validates without error. -/

lemma validate_item_dict_ok (d : List (String × PyVal)) :
    ∃ r, validate_item (.dict d) = .ok r := by
  simp only [validate_item]
  split
  · exact ⟨_, rfl⟩
  · split
    · exact ⟨_, rfl⟩
    · split
      · exact ⟨_, rfl⟩
      · exact ⟨_, rfl⟩

lemma validate_items_ok : ∀ (xs : List PyVal),
    (∀ x ∈ xs, ∃ d, x = PyVal.dict d) → ∃ l, validate_items xs = .ok l := by
  intro xs
  induction xs with
  | nil => intro _; exact ⟨[], rfl⟩
  | cons x rest ih =>
    intro hall
    obtain ⟨d, hd⟩ := hall x (List.mem_cons_self _ _)
    obtain ⟨r, hr⟩ := validate_item_dict_ok d
    obtain ⟨l, hl⟩ := ih (fun y hy => hall y (List.mem_cons_of_mem _ hy))
    cases hE : validate_items (x :: rest) with
    | ok l2 => exact ⟨l2, rfl⟩
    | error e =>
      exfalso
      rw [validate_items, hd, hr, hl] at hE
      simp at hE

lemma validate_page_ok (kvs : List (String × PyVal))
    (htype : ∃ s, pyGet kvs "page_type" (.str "Bill Detail") = .str s)
    (hitems : ∃ xs, pyGet kvs "bill_items" (.list []) = .list xs ∧
      ∀ x ∈ xs, ∃ d, x = PyVal.dict d) :
    ∃ pg, validate_page (.dict kvs) = .ok pg := by
  obtain ⟨s, hs⟩ := htype
  obtain ⟨xs, hxs, hall⟩ := hitems
  obtain ⟨l, hl⟩ := validate_items_ok xs hall
  cases hE : validate_page (.dict kvs) with
  | ok pg => exact ⟨pg, rfl⟩
  | error e =>
    exfalso
    rw [validate_page, hs] at hE
    simp only [normalize_page_type] at hE
    rw [hxs] at hE
    simp only [pyIter] at hE
    rw [hl] at hE
    simp at hE

lemma validate_pages_ok : ∀ (vs : List PyVal),
    (∀ v ∈ vs, ∃ kvs, v = PyVal.dict kvs ∧
      (∃ s, pyGet kvs "page_type" (.str "Bill Detail") = .str s) ∧
      (∃ xs, pyGet kvs "bill_items" (.list []) = .list xs ∧
        ∀ x ∈ xs, ∃ d, x = PyVal.dict d)) →
    ∃ pgs, validate_pages vs = .ok pgs := by
  intro vs
  induction vs with
  | nil => intro _; exact ⟨[], rfl⟩
  | cons v rest ih =>
    intro hall
    obtain ⟨kvs, hv, htype, hitems⟩ := hall v (List.mem_cons_self _ _)
    obtain ⟨pg, hpg⟩ := validate_page_ok kvs htype hitems
    obtain ⟨pgs, hpgs⟩ := ih (fun y hy => hall y (List.mem_cons_of_mem _ hy))
    cases hE : validate_pages (v :: rest) with
    | ok out => exact ⟨out, rfl⟩
    | error e =>
      exfalso
      rw [validate_pages, hv, hpg, hpgs] at hE
      simp at hE

/-! Reconciliation fold lemmas. -/

lemma foldl_add_map {α M : Type _} [AddCommMonoid M] (f : α → M) :
    ∀ (l : List α) (n : M), l.foldl (fun a x => a + f x) n = n + (l.map f).sum := by
  intro l
  induction l with
  | nil => intro n; simp
  | cons x rest ih =>
    intro n
    simp only [List.foldl_cons, List.map_cons, List.sum_cons]
    rw [ih]
    exact add_assoc _ _ _

lemma foldl_amounts_eq : ∀ (pages : List Page) (c : PyFloat),
    pages.foldl (fun acc p => p.bill_items.foldl (fun a e => a + e.item_amount) acc) c
      = c + (pages.map (fun p => (p.bill_items.map BillItem.item_amount).sum)).sum := by
  intro pages
  induction pages with
  | nil => intro c; simp
  | cons p ps ih =>
    intro c
    simp only [List.foldl_cons, List.map_cons, List.sum_cons]
    rw [foldl_add_map, ih]
    rw [add_assoc]

/-! Claim theorems. -/

/-- C1: the Cross-Page Deduplicator, processing pages in input order and
items in insertion order, returns the same page sequence with page_no and
page_type preserved exactly (pages whose items are all removed stay, with
an empty item list), each output item list an order-preserving sublist of
the input one; at every step an item is kept iff it matches no previously
kept item (the head characterization over an arbitrary seen accumulator),
and the seen accumulator after a scan is exactly the previously seen items
followed by the newly kept ones in order, so the first occurrence of every
duplicate group survives and later occurrences are removed. -/
theorem C1_dedup_order_preserving :
    (∀ pages : List Page,
      (deduplicate_items pages).map Page.page_no = pages.map Page.page_no ∧
      (deduplicate_items pages).map Page.page_type = pages.map Page.page_type ∧
      (deduplicate_items pages).length = pages.length ∧
      ∀ (i : ℕ) (hi : i < pages.length) (hi2 : i < (deduplicate_items pages).length),
        ((deduplicate_items pages).get ⟨i, hi2⟩).bill_items.Sublist
          ((pages.get ⟨i, hi⟩).bill_items)) ∧
    (∀ (pno : String) (seen : List SeenItem) (it : BillItem) (rest : List BillItem),
      (dedupScan pno seen (it :: rest)).1.head? = some it ↔
        ∀ s ∈ seen, are_items_duplicate it s.item = false) ∧
    (∀ (pno : String) (seen : List SeenItem) (items : List BillItem),
      (dedupScan pno seen items).2 =
        seen ++ (dedupScan pno seen items).1.map (fun b => ⟨b, pno⟩)) := by
  refine ⟨fun pages => ⟨dedupPages_map_no pages [], dedupPages_map_type pages [],
    dedupPages_length pages [], fun i hi hi2 => dedupPages_get_sublist pages [] i hi hi2⟩,
    dedupScan_head_iff, fun pno seen items => dedupScan_snd pno items seen⟩

/-- Witness for C1: on a two-page input whose second page repeats the first
page item by exact name, the second output page has a sublist (here empty)
of its input items. -/
theorem C1_dedup_witness :
    ((deduplicate_items [⟨"1", "Bill Detail", [⟨"Paracetamol", 100, 0, 0⟩]⟩,
        ⟨"2", "Final Bill", [⟨"Paracetamol", 500, 0, 0⟩]⟩]).get
          ⟨1, by with_unfolding_all decide⟩).bill_items.Sublist
      ((([⟨"1", "Bill Detail", [⟨"Paracetamol", 100, 0, 0⟩]⟩,
        ⟨"2", "Final Bill", [⟨"Paracetamol", 500, 0, 0⟩]⟩] : List Page)).get
          ⟨1, by decide⟩).bill_items :=
  (C1_dedup_order_preserving.1 _).2.2.2 1 (by decide) (by with_unfolding_all decide)

/-- C2: whenever the core pipeline succeeds, the reported total item count
is the sum of the output item-list lengths and the reported amount is the
sum of every output item amount rounded to 2 decimals; the empty input
yields the empty result with count 0 and amount 0, not an error. -/
theorem C2_reconciler_contract :
    (∀ (input : List PyVal) (out : List Page) (cnt : ℕ) (amt : PyFloat),
        process_invoice_core input = .ok (out, cnt, amt) →
          cnt = (out.map (fun p => p.bill_items.length)).sum ∧
          amt = pyRound2 ((out.map (fun p => (p.bill_items.map BillItem.item_amount).sum)).sum)) ∧
    process_invoice_core [] = .ok ([], 0, 0) := by
  constructor
  · intro input out cnt amt h
    rw [process_invoice_core] at h
    split at h
    · cases h
    · next clean hclean =>
      injection h with h1
      cases h1
      constructor
      · rw [foldl_add_map]
        simp
      · rw [foldl_amounts_eq]
        simp
  · with_unfolding_all decide

/-- Witness for C2: the three-page document of the specification examples,
whose middle page repeats the first item; the count is 2 and the amount
30.5. -/
theorem C2_reconciler_witness :
    (2 : ℕ) = (([⟨"1", "Bill Detail", [⟨"Item A", .finite (21/2), 0, 0⟩]⟩,
        ⟨"2", "Final Bill", []⟩,
        ⟨"3", "Bill Detail", [⟨"Item B", 20, 0, 0⟩]⟩] : List Page).map
          (fun p => p.bill_items.length)).sum ∧
    PyFloat.finite (61/2) = pyRound2 ((([⟨"1", "Bill Detail", [⟨"Item A", .finite (21/2), 0, 0⟩]⟩,
        ⟨"2", "Final Bill", []⟩,
        ⟨"3", "Bill Detail", [⟨"Item B", 20, 0, 0⟩]⟩] : List Page).map
          (fun p => (p.bill_items.map BillItem.item_amount).sum)).sum) :=
  C2_reconciler_contract.1
    [.dict [("page_no", .str "1"), ("page_type", .str "Bill Detail"),
       ("bill_items", .list [.dict [("item_name", .str "Item A"), ("item_amount", .num (.finite (21/2)))]])],
     .dict [("page_no", .str "2"), ("page_type", .str "Final Bill"),
       ("bill_items", .list [.dict [("item_name", .str "Item A"), ("item_amount", .num (.finite (21/2)))]])],
     .dict [("page_no", .str "3"), ("page_type", .str "Bill Detail"),
       ("bill_items", .list [.dict [("item_name", .str "Item B"), ("item_amount", .num 20)]])]]
    _ _ _ (by with_unfolding_all decide)

/-- C3 counterexample: a page whose page_type field is present but null
makes the core raise an uncaught AttributeError (None has no lower method)
inside _normalize_page_type, so validate_and_deduplicate does not complete
normally; a null bill_items raises an uncaught TypeError the same way. -/
theorem C3_counterexample :
    validate_and_deduplicate [PyVal.dict [("page_type", PyVal.none)]] = .error () ∧
    validate_and_deduplicate [PyVal.dict [("bill_items", PyVal.none)]] = .error () :=
  ⟨rfl, rfl⟩

/-- C3 amended: the core completes without error and produces a page list
whenever every page is a dict whose page_type, when present, is a string
and whose bill_items, when present, is a list of dicts; the item fields
themselves may be missing, null or wrong-typed. A null page_type or a null
bill_items, however, raises an uncaught error (see the counterexample). -/
theorem C3_amended_no_fatal_path (pages : List PyVal)
    (h : ∀ v ∈ pages, ∃ kvs, v = PyVal.dict kvs ∧
      (∃ s, pyGet kvs "page_type" (.str "Bill Detail") = .str s) ∧
      (∃ xs, pyGet kvs "bill_items" (.list []) = .list xs ∧
        ∀ x ∈ xs, ∃ d, x = PyVal.dict d)) :
    ∃ out, validate_and_deduplicate pages = .ok out := by
  rw [validate_and_deduplicate]
  by_cases hempty : pages.isEmpty
  · rw [if_pos hempty]
    exact ⟨[], rfl⟩
  · rw [if_neg hempty]
    obtain ⟨pgs, hpgs⟩ := validate_pages_ok pages h
    rw [hpgs]
    exact ⟨_, rfl⟩

/-- Witness for C3 amended: a dict page with both page_type and bill_items
absent (so both default) validates without error. -/
theorem C3_amended_witness :
    ∃ out, validate_and_deduplicate [PyVal.dict [("page_no", PyVal.str "1")]] = .ok out :=
  C3_amended_no_fatal_path _ (by
    intro v hv
    simp only [List.mem_singleton] at hv
    subst hv
    exact ⟨[("page_no", PyVal.str "1")], rfl, ⟨"Bill Detail", rfl⟩,
      ⟨[], rfl, fun x hx => absurd hx (List.not_mem_nil x)⟩⟩)

/-- C4: the Total/Subtotal Classifier fires on a name iff some keyword of
the fixed list occurs as a substring of the lower-cased (and stripped)
name, the name is shorter than 30 characters, and removing every
occurrence of that keyword leaves only one of the residues "", "-", ":",
"="; the Item Validator hence rejects the names "Total:", "Grand Total"
and "Sub-Total =" and accepts "Total Antibiotics", "Total Knee
Replacement" and "Antibiotics Total Course". -/
theorem C4_total_classifier :
    (∀ name : String,
      is_total_or_subtotal name = true ↔
        ∃ kw ∈ total_keywords,
          substrB kw (pyStrip (pyLower name)) = true ∧
          (pyStrip (pyLower name)).length < 30 ∧
          pyStrip (pyReplace (pyStrip (pyLower name)) kw "") ∈
            (["", "-", ":", "="] : List String)) ∧
    validate_item (.dict [("item_name", .str "Total:")]) = .ok Option.none ∧
    validate_item (.dict [("item_name", .str "Grand Total")]) = .ok Option.none ∧
    validate_item (.dict [("item_name", .str "Sub-Total =")]) = .ok Option.none ∧
    validate_item (.dict [("item_name", .str "Total Antibiotics")]) =
      .ok (some ⟨"Total Antibiotics", 0, 0, 0⟩) ∧
    validate_item (.dict [("item_name", .str "Total Knee Replacement")]) =
      .ok (some ⟨"Total Knee Replacement", 0, 0, 0⟩) ∧
    validate_item (.dict [("item_name", .str "Antibiotics Total Course")]) =
      .ok (some ⟨"Antibiotics Total Course", 0, 0, 0⟩) := by
  refine ⟨?_, rfl, rfl, rfl, rfl, rfl, rfl⟩
  intro name
  rw [is_total_or_subtotal]
  simp only [List.any_eq_true, Bool.and_eq_true, decide_eq_true_eq, List.contains,
    List.elem_iff]
  constructor
  · rintro ⟨kw, hkw, ⟨hsub, hlen⟩, hres⟩
    exact ⟨kw, hkw, hsub, hlen, hres⟩
  · rintro ⟨kw, hkw, hsub, hlen, hres⟩
    exact ⟨kw, hkw, ⟨hsub, hlen⟩, hres⟩

/-- C5 counterexample: the items Paracetamol Tab (amount 100.0) and
Paracetamol Tablet (amount 100.5) are NOT judged duplicates by the
Similarity Scorer, contrary to the claim. -/
theorem C5_counterexample :
    ¬ (are_items_duplicate ⟨"Paracetamol Tab", 100, 0, 0⟩
        ⟨"Paracetamol Tablet", .finite (201/2), 0, 0⟩ = true) := by
  with_unfolding_all decide

/-- C5 amended: the pair is not merged, because the word-set Jaccard
similarity of the two names is 1/3 (shared word paracetamol out of the
three words paracetamol, tab, tablet), which is not above the 0.8
threshold; the amount closeness test would succeed (relative difference
0.005) but is never decisive since the similarity gate fails. -/
theorem C5_amended_not_merged :
    are_items_duplicate ⟨"Paracetamol Tab", 100, 0, 0⟩
      ⟨"Paracetamol Tablet", .finite (201/2), 0, 0⟩ = false ∧
    calculate_name_similarity (pyStrip (pyLower "Paracetamol Tab"))
      (pyStrip (pyLower "Paracetamol Tablet")) = 1/3 ∧
    ¬ (similarity_threshold < 1/3) ∧
    |(100 : ℚ) - 201/2| / max |(100 : ℚ)| (1/100) < 1/20 := by
  refine ⟨?_, ?_, ?_, ?_⟩ <;> with_unfolding_all decide

/-- C6: two items whose lower-cased stripped names are equal as strings are
declared duplicates by the Similarity Scorer outright, with the amounts
never examined. -/
theorem C6_exact_name_short_circuit (item1 item2 : BillItem)
    (h : pyStrip (pyLower item1.item_name) = pyStrip (pyLower item2.item_name)) :
    are_items_duplicate item1 item2 = true := by
  rw [are_items_duplicate, if_pos h]

/-- Witness for C6: two items named Paracetamol with amounts 100 and 500
are merged despite the very different amounts. -/
theorem C6_exact_name_witness :
    are_items_duplicate ⟨"Paracetamol", 100, 0, 0⟩ ⟨"Paracetamol", 500, 0, 0⟩ = true :=
  C6_exact_name_short_circuit ⟨"Paracetamol", 100, 0, 0⟩ ⟨"Paracetamol", 500, 0, 0⟩ rfl

/-- C7 counterexample: the Item Validator accepts the string "inf" for
item_amount — Python float("inf") succeeds and returns the non-finite
value inf — so the core emits an output item whose amount is not a finite
number, falsifying the finiteness part of the claimed LineItem invariant
at this concrete input. -/
theorem C7_counterexample :
    validate_and_deduplicate
        [PyVal.dict [("page_type", PyVal.str "Bill Detail"),
          ("bill_items", PyVal.list [PyVal.dict
            [("item_name", PyVal.str "Room Charges"),
             ("item_amount", PyVal.str "inf")]])]] =
      .ok [⟨"1", "Bill Detail", [⟨"Room Charges", PyFloat.inf, 0, 0⟩]⟩] ∧
    PyFloat.isFinite PyFloat.inf = false := by
  refine ⟨?_, rfl⟩
  with_unfolding_all decide

/-- C7 amended: every item in the output of validate_and_deduplicate
satisfies the name part of the LineItem invariant — nonempty, fixed by
stripping (so carries no surrounding whitespace), at least 2 characters
long, and not classified as a total or subtotal line — and no rejected
item reaches the output, since output items all come from successful
validate_item runs. The finiteness part of the claimed invariant is false:
the numeric fields are whatever float() produced, and a string field such
as "inf" or "nan" passes through as a non-finite value (see the
counterexample). -/
theorem C7_output_invariant (input : List PyVal) (out : List Page)
    (h : validate_and_deduplicate input = .ok out) :
    ∀ p ∈ out, ∀ b ∈ p.bill_items,
      b.item_name ≠ "" ∧ pyStrip b.item_name = b.item_name ∧
        2 ≤ b.item_name.length ∧ is_total_or_subtotal b.item_name = false := by
  rw [validate_and_deduplicate] at h
  by_cases hempty : input.isEmpty
  · rw [if_pos hempty] at h
    injection h with h1
    rw [← h1]
    intro p hp
    cases hp
  · rw [if_neg hempty] at h
    split at h
    · cases h
    · next vps hvps =>
      injection h with h1
      intro p hp b hb
      rw [← h1] at hp
      obtain ⟨p0, hp0, hbp0⟩ := dedupPages_item_mem vps [] p hp b hb
      exact validate_pages_sound input vps hvps p0 hp0 b hbp0

/-- Witness for C7 on a one-page input whose single raw item has an
untrimmed name; the output item name satisfies all four conditions. -/
theorem C7_output_witness :
    ("Item A" : String) ≠ "" ∧ pyStrip "Item A" = "Item A" ∧
      2 ≤ ("Item A" : String).length ∧ is_total_or_subtotal "Item A" = false :=
  C7_output_invariant
    [PyVal.dict [("page_type", PyVal.str "Bill Detail"),
      ("bill_items", PyVal.list [PyVal.dict [("item_name", PyVal.str "  Item A  ")]])]]
    [⟨"1", "Bill Detail", [⟨"Item A", 0, 0, 0⟩]⟩]
    (by with_unfolding_all decide)
    ⟨"1", "Bill Detail", [⟨"Item A", 0, 0, 0⟩]⟩ (by with_unfolding_all decide)
    ⟨"Item A", 0, 0, 0⟩ (by with_unfolding_all decide)

/-- C8: the relative amount-closeness test divides the absolute difference
by the magnitude of the first argument only, the candidate item of the
deduplication scan, so the duplicate verdict can change when the arguments
are swapped: with near-identical names and amounts 1000 and 951, the pair
is a duplicate with 1000 first (49/1000 below 5 percent) but not with 951
first (49/951 above 5 percent); consequently the scan keeps both items
when the 1000-amount item comes first and drops the second page item when
the 951-amount item comes first. -/
theorem C8_asymmetric_amount_test :
    are_items_duplicate ⟨"a b c d e", 1000, 0, 0⟩ ⟨"a b c d e f", 951, 0, 0⟩ = true ∧
    are_items_duplicate ⟨"a b c d e f", 951, 0, 0⟩ ⟨"a b c d e", 1000, 0, 0⟩ = false ∧
    deduplicate_items [⟨"1", "Bill Detail", [⟨"a b c d e", 1000, 0, 0⟩]⟩,
        ⟨"2", "Bill Detail", [⟨"a b c d e f", 951, 0, 0⟩]⟩] =
      [⟨"1", "Bill Detail", [⟨"a b c d e", 1000, 0, 0⟩]⟩,
        ⟨"2", "Bill Detail", [⟨"a b c d e f", 951, 0, 0⟩]⟩] ∧
    deduplicate_items [⟨"1", "Bill Detail", [⟨"a b c d e f", 951, 0, 0⟩]⟩,
        ⟨"2", "Bill Detail", [⟨"a b c d e", 1000, 0, 0⟩]⟩] =
      [⟨"1", "Bill Detail", [⟨"a b c d e f", 951, 0, 0⟩]⟩,
        ⟨"2", "Bill Detail", []⟩] := by
  refine ⟨?_, ?_, ?_, ?_⟩ <;> with_unfolding_all decide

/-- C9: validating the emitted form of an already validated item accepts it
again and returns the very same item: the name is unchanged by the second
strip and the numeric fields are unchanged by the second coercion. -/
theorem C9_validation_idempotent (v : PyVal) (b : BillItem)
    (h : validate_item v = .ok (some b)) :
    validate_item (.dict [("item_name", .str b.item_name),
      ("item_amount", .num b.item_amount), ("item_rate", .num b.item_rate),
      ("item_quantity", .num b.item_quantity)]) = .ok (some b) := by
  obtain ⟨hne, hstrip, hlen, htot⟩ := validate_item_sound v b h
  have hred : validate_item (.dict [("item_name", .str b.item_name),
      ("item_amount", .num b.item_amount), ("item_rate", .num b.item_rate),
      ("item_quantity", .num b.item_quantity)]) =
      (if pyStrip b.item_name = "" ∨ (pyStrip b.item_name).length < 2 then .ok Option.none
       else if is_total_or_subtotal (pyStrip b.item_name) then .ok Option.none
       else .ok (some ⟨pyStrip b.item_name, b.item_amount, b.item_rate, b.item_quantity⟩)) := rfl
  rw [hred, hstrip]
  rw [if_neg (by push_neg; exact ⟨hne, hlen⟩)]
  rw [if_neg (by rw [htot]; exact Bool.false_ne_true)]

/-- Witness for C9: an item that validated from an untrimmed raw record
revalidates to itself. -/
theorem C9_validation_witness :
    validate_item (.dict [("item_name", .str "Aspirin"), ("item_amount", .num 5),
      ("item_rate", .num 1), ("item_quantity", .num 1)]) = .ok (some ⟨"Aspirin", 5, 1, 1⟩) :=
  C9_validation_idempotent
    (.dict [("item_name", .str "  Aspirin "), ("item_amount", .num 5),
      ("item_rate", .num 1), ("item_quantity", .num 1)])
    ⟨"Aspirin", 5, 1, 1⟩ (by with_unfolding_all decide)

/-- C10: an item whose item_name field is present but null is not rejected
for its name: str(None) gives the four-character name None, which passes
the length check and the total-keyword check, so the item is emitted with
name None whenever its numeric fields coerce; an absent item_name (which
defaults to the empty string) is rejected, and so is any name that strips
to fewer than 2 characters. -/
theorem C10_null_name_coerced :
    (∀ a r q : PyFloat,
      validate_item (.dict [("item_name", PyVal.none), ("item_amount", .num a),
        ("item_rate", .num r), ("item_quantity", .num q)]) = .ok (some ⟨"None", a, r, q⟩)) ∧
    validate_item (.dict [("item_amount", PyVal.num 5), ("item_rate", PyVal.num 1),
      ("item_quantity", PyVal.num 1)]) = .ok Option.none ∧
    (∀ kvs : List (String × PyVal),
      (pyStrip (pyStr (pyGet kvs "item_name" (.str "")))).length < 2 →
        validate_item (.dict kvs) = .ok Option.none) := by
  refine ⟨fun a r q => rfl, rfl, ?_⟩
  intro kvs hshort
  rw [validate_item, if_pos (Or.inr hshort)]

/-- Witness for C10: a one-character name is rejected. -/
theorem C10_null_name_witness :
    validate_item (.dict [("item_name", PyVal.str "x")]) = .ok Option.none :=
  C10_null_name_coerced.2.2 [("item_name", PyVal.str "x")] (by decide)
